import Mathlib

/-!
Verification of the object-detection / Google-Lens identification pipeline of
`google_search_mcp/server.py` (functions `_detect_objects`,
`_lens_upload_in_session`, `_do_google_lens_detect`).

Shallow embedding conventions:
* Python integers are modelled as `ℤ`.
* Python float arithmetic on box areas and ratios is modelled exactly over `ℚ`
  (the literals `0.3`, `0.95`, `0.02`, `0.1` become the rationals they denote);
  `int(mw * 0.1)` on a non-negative width is `⌊mw / 10⌋`.
* The external identification backend (`_lens_upload_in_session`, and
  `_do_google_lens` on the fallback path) is a parameter
  `query : String → Except String String`: `.ok s` is a string result returned
  to the caller (including in-band failure texts such as the rate-limit
  message produced inside `_lens_upload_in_session`), `.error e` is a raised
  exception (Playwright timeout, transport failure).
* The filesystem is an explicit state `FS`; `tempfile.mkdtemp` and
  `shutil.rmtree` act on it, and Python `try/finally` becomes an unconditional
  application of the cleanup to every outcome of the body.
-/

namespace LensDetect

/-- An axis-aligned box `(x, y, w, h)` as produced by `cv2.boundingRect` and
manipulated by `_detect_objects`. -/
structure Box where
  x : ℤ
  y : ℤ
  w : ℤ
  h : ℤ
deriving DecidableEq, Repr

/-- Pixel area of a box, `bw * bh` in the source. -/
def Box.area (b : Box) : ℤ := b.w * b.h

/-- The area filter of `_detect_objects`:
`area >= min_area and area < total_area * 0.95` with
`min_area = total_area * min_area_ratio`. -/
def keepBox (minAreaRatio : ℚ) (totalArea : ℤ) (b : Box) : Bool :=
  decide (minAreaRatio * (totalArea : ℚ) ≤ (b.area : ℚ)) &&
  decide ((b.area : ℚ) < (totalArea : ℚ) * (95 / 100))

/-- Stable insertion of a box into a list sorted by area descending, mirroring
the stability of Python `list.sort(key=lambda b: b[4], reverse=True)`. -/
def insertByAreaDesc (b : Box) : List Box → List Box
  | [] => [b]
  | c :: rest =>
      if c.area ≤ b.area then b :: c :: rest
      else c :: insertByAreaDesc b rest

/-- Python `boxes.sort(key=lambda b: b[4], reverse=True)`: stable sort by
area descending. -/
def sortByAreaDesc : List Box → List Box
  | [] => []
  | b :: rest => insertByAreaDesc b (sortByAreaDesc rest)

/-- Intersection overlap of the current anchor `m` with a candidate box `b`:
`ox * oy` where `ox = max(0, min(mx + mw, x2 + w2) - max(mx, x2))` and
similarly for `oy`. -/
def overlapArea (m b : Box) : ℤ :=
  (max 0 (min (m.x + m.w) (b.x + b.w) - max m.x b.x)) *
  (max 0 (min (m.y + m.h) (b.y + b.h) - max m.y b.y))

/-- The smaller of the two box areas, `min(mw * mh, w2 * h2)`. -/
def smallerArea (m b : Box) : ℤ := min m.area b.area

/-- The merge condition
`smaller_area > 0 and overlap / smaller_area > 0.3`, with the float
arithmetic modelled exactly. For positive `smaller_area` the exact comparison
`overlap / smaller_area > 3/10` is equivalent to the integer comparison
`3 * smaller_area < 10 * overlap` used here, which keeps the definition
computable by the kernel; `overlapExceeds_ratio_form` proves the equality
with the division form, and `overlapExceedsChecked` below states the
division form verbatim. -/
def overlapExceeds (m b : Box) : Bool :=
  decide (0 < smallerArea m b) &&
  decide (3 * smallerArea m b < 10 * overlapArea m b)

/-- Union of the anchor with an absorbed box: the code replaces
`(mx, my, mw, mh)` with the bounding box of the two. -/
def unionBox (m b : Box) : Box :=
  { x := min m.x b.x
    y := min m.y b.y
    w := max (m.x + m.w) (b.x + b.w) - min m.x b.x
    h := max (m.y + m.h) (b.y + b.h) - min m.y b.y }

/-- Inner loop of the merge: fold the current anchor `m` over the indexed
boxes after the anchor, absorbing each not-yet-used box whose overlap with the
current (already grown) anchor exceeds the threshold, accumulating the set of
used indices. -/
def absorbAll (m : Box) (used : List ℕ) : List (ℕ × Box) → Box × List ℕ
  | [] => (m, used)
  | (j, b) :: rest =>
      if j ∈ used then absorbAll m used rest
      else if overlapExceeds m b then absorbAll (unionBox m b) (j :: used) rest
      else absorbAll m used rest

/-- Outer loop of the merge over the enumerated boxes: each box not yet
absorbed becomes an anchor, absorbs from the boxes after it, and is appended
to the merged list. -/
def mergePass (all : List (ℕ × Box)) : List (ℕ × Box) → List ℕ → List Box
  | [], _ => []
  | (i, b) :: pending, used =>
      if i ∈ used then mergePass all pending used
      else
        let r := absorbAll b used (all.drop (i + 1))
        r.1 :: mergePass all pending (i :: r.2)

/-- The merge step of `_detect_objects`: sort candidate boxes by area
descending, then run the absorb loop. -/
def mergeBoxes (boxes : List Box) : List Box :=
  mergePass (sortByAreaDesc boxes).enum (sortByAreaDesc boxes).enum []

/-- Constant `MAX_OBJECTS` of the source. -/
def MAX_OBJECTS : ℕ := 4

/-- Padding and clamping of one merged box inside a `W × H` image:
`pad_x = int(mw * 0.1)`, `cx = max(0, mx - pad_x)`,
`cw = min(w - cx, mw + 2 * pad_x)`, and likewise vertically. -/
def padClamp (W H : ℤ) (b : Box) : Box :=
  let padX := b.w / 10
  let padY := b.h / 10
  let cx := max 0 (b.x - padX)
  let cy := max 0 (b.y - padY)
  { x := cx
    y := cy
    w := min (W - cx) (b.w + 2 * padX)
    h := min (H - cy) (b.h + 2 * padY) }

/-- Position label of a padded box: normalized center thirds,
`top/middle/bottom` crossed with `left/center/right`. -/
def positionLabel (W H : ℤ) (c : Box) : String :=
  let cyCenter : ℚ := ((c.y : ℚ) + (c.h : ℚ) / 2) / (H : ℚ)
  let cxCenter : ℚ := ((c.x : ℚ) + (c.w : ℚ) / 2) / (W : ℚ)
  let vPos := if cyCenter < 33 / 100 then "top"
              else if cyCenter < 66 / 100 then "middle" else "bottom"
  let hPos := if cxCenter < 33 / 100 then "left"
              else if cxCenter < 66 / 100 then "center" else "right"
  vPos ++ "-" ++ hPos

/-- A padded, clamped, labeled crop region as returned by `_detect_objects`. -/
structure LabeledBox where
  box : Box
  label : String
deriving DecidableEq, Repr

/-- Pad, clamp and label one merged box. -/
def padAndLabel (W H : ℤ) (b : Box) : LabeledBox :=
  let c := padClamp W H b
  { box := c, label := positionLabel W H c }

/-- The pure core of `_detect_objects` on a decoded `W × H` image, taking the
contour bounding boxes found by OpenCV as input: filter by area, return `[]`
when nothing remains, otherwise sort, merge, truncate to `MAX_OBJECTS`, pad
and label. -/
def detectObjects (W H : ℤ) (minAreaRatio : ℚ) (contours : List Box) :
    List LabeledBox :=
  let boxes := contours.filter (keepBox minAreaRatio (H * W))
  if boxes.isEmpty then []
  else ((mergeBoxes boxes).take MAX_OBJECTS).map (padAndLabel W H)

/-! ## Guarded division in the merge condition

The source computes `overlap / smaller_area` only behind the short-circuit
guard `smaller_area > 0 and ...`. To express that no division by zero is
performed, `checkedDiv` is division that fails on a zero denominator, and the
checked variants of the merge condition and loops thread that failure. -/

/-- Division over `ℚ` that reports a zero denominator instead of defaulting. -/
def checkedDiv (a b : ℚ) : Option ℚ :=
  if b = 0 then none else some (a / b)

/-- The merge condition with the division-by-zero check made explicit: the
guard `smaller_area > 0` is evaluated first and, exactly as in the source
short-circuit, the division is only reached when the guard holds. -/
def overlapExceedsChecked (m b : Box) : Option Bool :=
  if 0 < smallerArea m b then
    (checkedDiv (overlapArea m b : ℚ) (smallerArea m b : ℚ)).map
      (fun r => decide ((3 : ℚ) / 10 < r))
  else some false

/-- Inner merge loop threading the division-by-zero check. -/
def absorbAllChecked (m : Box) (used : List ℕ) :
    List (ℕ × Box) → Option (Box × List ℕ)
  | [] => some (m, used)
  | (j, b) :: rest =>
      if j ∈ used then absorbAllChecked m used rest
      else
        match overlapExceedsChecked m b with
        | none => none
        | some true => absorbAllChecked (unionBox m b) (j :: used) rest
        | some false => absorbAllChecked m used rest

/-- Outer merge loop threading the division-by-zero check. -/
def mergePassChecked (all : List (ℕ × Box)) :
    List (ℕ × Box) → List ℕ → Option (List Box)
  | [], _ => some []
  | (i, b) :: pending, used =>
      if i ∈ used then mergePassChecked all pending used
      else
        match absorbAllChecked b used (all.drop (i + 1)) with
        | none => none
        | some r =>
            (mergePassChecked all pending (i :: r.2)).map (fun l => r.1 :: l)

/-- The merge step with every division checked for a zero denominator. -/
def mergeBoxesChecked (boxes : List Box) : Option (List Box) :=
  mergePassChecked (sortByAreaDesc boxes).enum (sortByAreaDesc boxes).enum []

/-! ## The identification session and the surrounding pipeline -/

/-- One backend query, `_lens_upload_in_session` seen from its caller: `.ok s`
is a returned result string — including the in-band failure texts such as
`"Rate limited by Google. Try again later."` — and `.error e` is a raised
exception (Playwright timeout or transport failure) with message `e`. -/
abbrev Backend := String → Except String String

/-- The crop-query loop body of `_do_google_lens_detect`: query each crop in
order, labelling entries `"Object (<label>)"`. A raised exception is caught by
the single `except` around the whole loop, which appends one
`("Error", message)` entry and stops; the second component is the trace of
paths queried, in order. -/
def runCrops (q : Backend) : List (String × String) → List (String × String) × List String
  | [] => ([], [])
  | (path, label) :: rest =>
      match q path with
      | .error e => ([("Error", e)], [path])
      | .ok r =>
          let t := runCrops q rest
          (("Object (" ++ label ++ ")", r) :: t.1, path :: t.2)

/-- The full query session of `_do_google_lens_detect`: the unmodified full
image first, labelled `"Full image (original)"`, then each crop in order; an
exception anywhere is caught by the one `except` around the whole block and
recorded as a final `("Error", message)` entry. Returns the result entries
and the trace of queried paths. -/
def runSession (q : Backend) (filePath : String)
    (crops : List (String × String)) : List (String × String) × List String :=
  match q filePath with
  | .error e => ([("Error", e)], [filePath])
  | .ok og =>
      let t := runCrops q crops
      (("Full image (original)", og) :: t.1, filePath :: t.2)

/-- Filesystem state: the set of live directories and of files, a file being
a pair (directory, file name). -/
structure FS where
  dirs : List String
  files : List (String × String)
deriving DecidableEq, Repr

/-- Python `tempfile.mkdtemp`: create the run's uniquely named directory. -/
def FS.mkdtemp (fs : FS) (d : String) : FS :=
  { fs with dirs := d :: fs.dirs }

/-- Python `cv2.imwrite` of one crop file inside a directory. -/
def FS.writeFile (fs : FS) (d name : String) : FS :=
  { fs with files := (d, name) :: fs.files }

/-- Python `shutil.rmtree(temp_dir, ignore_errors=True)`: remove the
directory and every file inside it. -/
def FS.rmtree (fs : FS) (d : String) : FS :=
  { dirs := fs.dirs.filter (fun x => x ≠ d)
    files := fs.files.filter (fun f => f.1 ≠ d) }

/-- The environment of one `_do_google_lens_detect` invocation: what the
collaborators outside the pure pipeline return. `decoded` is the
`cv2.imread` outcome (`some (W, H)` or `none`), `contours` the OpenCV contour
bounding boxes, `launch` the browser-launch outcome, `query` the
per-image-upload backend, and `singleLens` the out-of-scope single-query path
`_do_google_lens` that the no-objects fallback delegates to (it issues one
query on the full image). -/
structure Env where
  fileExists : Bool
  decoded : Option (ℤ × ℤ)
  contours : List Box
  launch : Except String Unit
  query : Backend
  singleLens : Backend

/-- Crop file names written into the temporary directory:
`object_<i>_<label>.jpg`. -/
def cropName (i : ℕ) (label : String) : String :=
  "object_" ++ toString i ++ "_" ++ label ++ ".jpg"

/-- Report formatting of `_do_google_lens_detect`: header lines, then one
section per result entry. -/
def formatReport (imagePath : String) (numCrops : ℕ)
    (results : List (String × String)) : String :=
  let header := "Google Lens Object Detection Results\nImage: " ++ imagePath ++
    "\nObjects detected: " ++ toString numCrops ++ "\n"
  let sections := results.map (fun r => "--- " ++ r.1 ++ " ---\n" ++ r.2 ++ "\n")
  String.intercalate "\n" (header :: sections)

/-- The body of the `try` of `_do_google_lens_detect`, from crop writing to
report formatting, run against filesystem `fs`: write one crop file per
detected object, fall back to the single-query path when there are none,
otherwise launch the browser (whose failure propagates as an exception) and
run the session. Returns the outcome (`.error` = exception propagating out of
the `try`), the trace of queried paths, and the filesystem. -/
def detectBody (env : Env) (imagePath tmpDir : String)
    (objects : List LabeledBox) (fs : FS) :
    Except String String × List String × FS :=
  let crops := objects.enum.map
    (fun p => (tmpDir ++ "/" ++ cropName p.1 p.2.label, p.2.label))
  let fs1 := objects.enum.foldl
    (fun s p => s.writeFile tmpDir (cropName p.1 p.2.label)) fs
  match crops with
  | [] => (env.singleLens imagePath, [imagePath], fs1)
  | _ :: _ =>
      match env.launch with
      | .error e => (.error e, [], fs1)
      | .ok _ =>
          let t := runSession env.query imagePath crops
          (.ok (formatReport imagePath crops.length t.1), t.2, fs1)

/-- The whole of `_do_google_lens_detect`: the missing-file and decode checks
return before the temporary directory is created; after `mkdtemp` the body
runs inside `try/finally`, so `rmtree` is applied to the body's filesystem on
every outcome — normal return, the no-objects fallback return, and a
propagating exception alike. `_detect_objects` re-reads the image itself and
returns `[]` when decoding fails, so the object list is empty unless
`decoded` is `some`. -/
def lensDetect (env : Env) (imagePath tmpDir : String) (fs : FS) :
    Except String String × List String × FS :=
  if env.fileExists = false then
    (.ok ("File not found: " ++ imagePath), [], fs)
  else
    match env.decoded with
    | none => (.ok ("Could not read image: " ++ imagePath), [], fs)
    | some (W, H) =>
        let objects := detectObjects W H (2 / 100) env.contours
        let fs1 := fs.mkdtemp tmpDir
        let r := detectBody env imagePath tmpDir objects fs1
        (r.1, r.2.1, (r.2.2).rmtree tmpDir)

/-! ## Definitions used only to state and witness the claims -/

/-- Modelled from the spec: "expand each dimension by 10% symmetrically and
clamp to image bounds" read as symmetric expansion by `pad` on each side of
each axis, followed by intersecting the expanded box with the image
rectangle `[0, W] × [0, H]`. Used to compare the spec's description of the
padder with `padClamp` as translated from the source. -/
def padSymmetricClamped (W H : ℤ) (b : Box) : Box :=
  let padX := b.w / 10
  let padY := b.h / 10
  let lx := max 0 (b.x - padX)
  let ly := max 0 (b.y - padY)
  { x := lx
    y := ly
    w := min W (b.x + b.w + padX) - lx
    h := min H (b.y + b.h + padY) - ly }

/-- Value carried by an `Except` result, the error message in the error
case. -/
def okValue : Except String String → String
  | .ok s => s
  | .error e => e

/-- Demo backend: the full image succeeds, the first crop times out (a raised
exception), the second crop would succeed. -/
def qCropTimeout : Backend := fun p =>
  if p = "full" then .ok "ok full"
  else if p = "c1" then .error "Timeout 30000ms exceeded."
  else .ok "ok c2"

/-- Demo backend: the full-image query itself raises a transport error. -/
def qFullFails : Backend := fun p =>
  if p = "img" then .error "net::ERR_TIMED_OUT" else .ok "r"

/-- Demo backend: every query resolves; the first crop resolves to the
in-band rate-limit text that `_lens_upload_in_session` returns as a normal
string result. -/
def qRateLimited : Backend := fun p =>
  if p = "c1" then .ok "Rate limited by Google. Try again later."
  else .ok "identified"

/-- Demo environment: readable, decodable 100 × 100 image with one contour
box, working browser and backend. -/
def envDemo : Env :=
  { fileExists := true
    decoded := some (100, 100)
    contours := [⟨10, 10, 30, 30⟩]
    launch := .ok ()
    query := fun _ => .ok "identified"
    singleLens := fun _ => .ok "single result" }

/-- Demo environment: decodable image on which the detector finds no
contours, so the detection step yields zero regions. -/
def envNoObjects : Env :=
  { fileExists := true
    decoded := some (50, 40)
    contours := []
    launch := .ok ()
    query := fun _ => .ok "identified"
    singleLens := fun _ => .ok "single result" }

/-! ## Theorems -/

/-- C3: the detection step truncates the merged list to `MAX_OBJECTS`, so the
number of labeled regions it returns — and hence of crop entries in the
report — never exceeds 4, for every image size, area ratio and contour
list. -/
theorem detect_at_most_four_regions (W H : ℤ) (r : ℚ) (contours : List Box) :
    (detectObjects W H r contours).length ≤ 4 := by
  unfold detectObjects
  by_cases h : (contours.filter (keepBox r (H * W))).isEmpty
  · simp [h]
  · simp only [h, if_false, Bool.false_eq_true, List.length_map,
      List.length_take, MAX_OBJECTS]
    exact min_le_left _ _

/-- C5: for every image size and every merged box, the padded and clamped
crop bounds lie entirely within the image: `0 ≤ x`, `0 ≤ y`, `x + w ≤ W`
and `y + h ≤ H`. -/
theorem padClamp_contained (W H : ℤ) (b : Box) :
    0 ≤ (padClamp W H b).x ∧ 0 ≤ (padClamp W H b).y ∧
    (padClamp W H b).x + (padClamp W H b).w ≤ W ∧
    (padClamp W H b).y + (padClamp W H b).h ≤ H := by
  simp only [padClamp]
  refine ⟨le_max_left _ _, le_max_left _ _, ?_, ?_⟩
  · have h := min_le_left (W - max 0 (b.x - b.w / 10)) (b.w + 2 * (b.w / 10))
    omega
  · have h := min_le_left (H - max 0 (b.y - b.h / 10)) (b.h + 2 * (b.h / 10))
    omega

/-- C6 counterexample: for the merged box `(0, 0, 50, 50)` in a `100 × 100`
image the source keeps the full expanded extent `60` after clamping the
origin, whereas symmetric 10% expansion followed by clamping to the image
bounds gives extent `55`; the padder is therefore not symmetric expansion
followed by clamping. -/
theorem padClamp_cex :
    padClamp 100 100 ⟨0, 0, 50, 50⟩ = ⟨0, 0, 60, 60⟩ ∧
    padSymmetricClamped 100 100 ⟨0, 0, 50, 50⟩ = ⟨0, 0, 55, 55⟩ ∧
    padClamp 100 100 ⟨0, 0, 50, 50⟩ ≠ padSymmetricClamped 100 100 ⟨0, 0, 50, 50⟩ := by
  refine ⟨rfl, rfl, ?_⟩
  decide

/-- C6 amended: whenever the symmetric 10% expansion keeps the origin inside
the image (`pad_x ≤ x` and `pad_y ≤ y`), the source's padder coincides with
symmetric expansion followed by clamping to the image bounds; when the origin
must be clamped, the source instead shifts the box, keeping width
`w + 2·pad_x` where it fits, so the retained padding is asymmetric. -/
theorem padClamp_eq_symmetric_of_origin_fits (W H : ℤ) (b : Box)
    (hx : b.w / 10 ≤ b.x) (hy : b.h / 10 ≤ b.y) :
    padClamp W H b = padSymmetricClamped W H b := by
  simp only [padClamp, padSymmetricClamped, Box.mk.injEq]
  refine ⟨trivial, trivial, ?_, ?_⟩ <;> omega

/-- Witness for `padClamp_eq_symmetric_of_origin_fits` at a concrete box. -/
theorem padClamp_eq_symmetric_of_origin_fits_witness :
    padClamp 100 100 ⟨20, 20, 50, 50⟩ = padSymmetricClamped 100 100 ⟨20, 20, 50, 50⟩ :=
  padClamp_eq_symmetric_of_origin_fits 100 100 ⟨20, 20, 50, 50⟩ (by decide) (by decide)

/-- C7 counterexample: with `min_area_ratio = 0.02` and a `20 × 5` image
(total area 100), the box `(0, 0, 19, 5)` has area 95, exactly
`0.95 · total`, which lies in the claim's closed interval, yet the filter
discards it: the upper bound of the source filter is strict. -/
theorem area_filter_cex :
    keepBox (2 / 100) 100 ⟨0, 0, 19, 5⟩ = false ∧
    (2 : ℚ) / 100 * 100 ≤ ((Box.area ⟨0, 0, 19, 5⟩ : ℤ) : ℚ) ∧
    ((Box.area ⟨0, 0, 19, 5⟩ : ℤ) : ℚ) ≤ (100 : ℚ) * (95 / 100) := by
  refine ⟨?_, by norm_num [Box.area], by norm_num [Box.area]⟩
  simp only [keepBox, Box.area, Bool.and_eq_false_iff, decide_eq_false_iff_not]
  right
  norm_num

/-- C7 amended: the area filter keeps exactly the boxes whose area lies in
the half-open interval `[min_area_ratio · total, 0.95 · total)`: closed at
the lower bound, strict at the upper bound. -/
theorem area_filter_characterization (r : ℚ) (total : ℤ) (l : List Box) (b : Box) :
    b ∈ l.filter (keepBox r total) ↔
      b ∈ l ∧ r * (total : ℚ) ≤ (b.area : ℚ) ∧
        (b.area : ℚ) < (total : ℚ) * (95 / 100) := by
  simp [List.mem_filter, keepBox, and_assoc]

/-- Lemma: the integer form of the merge condition agrees with the division
form `smaller_area > 0 and overlap / smaller_area > 0.3` computed exactly
over `ℚ`. -/
theorem overlapExceeds_ratio_form (m b : Box) :
    overlapExceeds m b =
      (decide (0 < smallerArea m b) &&
        decide ((3 : ℚ) / 10 < (overlapArea m b : ℚ) / (smallerArea m b : ℚ))) := by
  unfold overlapExceeds
  by_cases h : 0 < smallerArea m b
  · have hs : (0 : ℚ) < ((smallerArea m b : ℤ) : ℚ) := by exact_mod_cast h
    have hiff : ((3 : ℚ) / 10 < (overlapArea m b : ℚ) / (smallerArea m b : ℚ)) ↔
        3 * smallerArea m b < 10 * overlapArea m b := by
      rw [div_lt_div_iff₀ (by norm_num) hs, mul_comm ((overlapArea m b : ℚ)) 10]
      exact_mod_cast Iff.rfl
    rw [decide_eq_decide.mpr hiff.symm]
  · simp [h]

/-- Lemma: the checked merge condition never hits a zero denominator and
agrees with the unchecked condition, because the guard `smaller_area > 0` is
evaluated before the division. -/
theorem overlapExceedsChecked_eq (m b : Box) :
    overlapExceedsChecked m b = some (overlapExceeds m b) := by
  rw [overlapExceeds_ratio_form]
  unfold overlapExceedsChecked checkedDiv
  by_cases h : 0 < smallerArea m b
  · have h2 : ((smallerArea m b : ℤ) : ℚ) ≠ 0 := by
      exact_mod_cast ne_of_gt h
    simp [h, h2]
  · simp [h]

/-- Lemma: the checked inner merge loop never fails. -/
theorem absorbAllChecked_eq (l : List (ℕ × Box)) (m : Box) (used : List ℕ) :
    absorbAllChecked m used l = some (absorbAll m used l) := by
  induction l generalizing m used with
  | nil => rfl
  | cons p rest ih =>
      obtain ⟨j, b⟩ := p
      unfold absorbAllChecked absorbAll
      by_cases hj : j ∈ used
      · simp [hj, ih]
      · by_cases hc : overlapExceeds m b <;>
          simp [hj, overlapExceedsChecked_eq, hc, ih]

/-- Lemma: the checked outer merge loop never fails. -/
theorem mergePassChecked_eq (all : List (ℕ × Box)) (pending : List (ℕ × Box))
    (used : List ℕ) :
    mergePassChecked all pending used = some (mergePass all pending used) := by
  induction pending generalizing used with
  | nil => rfl
  | cons p rest ih =>
      obtain ⟨i, b⟩ := p
      unfold mergePassChecked mergePass
      by_cases hi : i ∈ used
      · simp [hi, ih]
      · simp [hi, absorbAllChecked_eq, ih]

/-- C10: for every input list of boxes — including degenerate boxes of zero
width or height — the merge step with an explicit division-by-zero check
succeeds and agrees with the merge step: the guard `smaller_area > 0`
short-circuits before the ratio division, so no division by zero is
performed. -/
theorem merge_no_division_by_zero (boxes : List Box) :
    mergeBoxesChecked boxes = some (mergeBoxes boxes) := by
  unfold mergeBoxesChecked mergeBoxes
  exact mergePassChecked_eq _ _ _

/-- Lemma: merging a singleton list returns it unchanged. -/
theorem mergeBoxes_singleton (a : Box) : mergeBoxes [a] = [a] := rfl

/-- Lemma: sorting a pair already ordered by descending area is stable. -/
theorem sortByAreaDesc_pair_of_le (a b : Box) (h : b.area ≤ a.area) :
    sortByAreaDesc [a, b] = [a, b] := by
  simp [sortByAreaDesc, insertByAreaDesc, h]

/-- Lemma: sorting a pair with the larger box second swaps it to the front. -/
theorem sortByAreaDesc_pair_of_gt (a b : Box) (h : ¬ b.area ≤ a.area) :
    sortByAreaDesc [a, b] = [b, a] := by
  simp [sortByAreaDesc, insertByAreaDesc, h]

/-- Lemma: the merge loop on a sorted pair either absorbs the second box into
the first or returns the pair unchanged. -/
theorem mergePass_pair (x y : Box) :
    mergePass [(0, x), (1, y)] [(0, x), (1, y)] [] =
      if overlapExceeds x y then [unionBox x y] else [x, y] := by
  by_cases hov : overlapExceeds x y <;>
    simp [mergePass, absorbAll, hov]

/-- Lemma: the merge step on a pair sorted by descending area. -/
theorem mergeBoxes_pair (x y : Box) (hxy : y.area ≤ x.area) :
    mergeBoxes [x, y] = if overlapExceeds x y then [unionBox x y] else [x, y] := by
  unfold mergeBoxes
  rw [sortByAreaDesc_pair_of_le x y hxy]
  exact mergePass_pair x y

/-- C4 counterexample: on the three raw boxes `(0,0,10,10)`, `(11,0,9,10)`,
`(7,0,8,10)` (already in descending area order 100, 90, 80), the anchor
checks box 2 before absorbing box 3 and growing past it, so the merge output
contains the pair `(0,0,15,10)`, `(11,0,9,10)` whose overlap ratio relative
to the smaller box is `40/90 > 0.3`, and re-running the merge step on that
output merges further, to the single box `(0,0,20,10)`: the merge step is
not idempotent and its output can contain a pair exceeding the 0.3
threshold. -/
theorem merge_not_idempotent_cex :
    mergeBoxes [⟨0, 0, 10, 10⟩, ⟨11, 0, 9, 10⟩, ⟨7, 0, 8, 10⟩] =
      [⟨0, 0, 15, 10⟩, ⟨11, 0, 9, 10⟩] ∧
    mergeBoxes [⟨0, 0, 15, 10⟩, ⟨11, 0, 9, 10⟩] = [⟨0, 0, 20, 10⟩] ∧
    overlapExceeds ⟨0, 0, 15, 10⟩ ⟨11, 0, 9, 10⟩ = true := by
  refine ⟨?_, ?_, ?_⟩ <;> decide

/-- C4 amended: the merge step is idempotent on inputs of at most two raw
boxes; with three or more boxes an anchor can grow after a pair has already
been checked, so in general the output may contain a pair with overlap ratio
above 0.3 and re-running the merge step can merge further. -/
theorem merge_idempotent_small (l : List Box) (h : l.length ≤ 2) :
    mergeBoxes (mergeBoxes l) = mergeBoxes l := by
  match l with
  | [] => rfl
  | [a] => rw [mergeBoxes_singleton a, mergeBoxes_singleton a]
  | [a, b] =>
    by_cases hab : b.area ≤ a.area
    · rw [mergeBoxes_pair a b hab]
      by_cases hov : overlapExceeds a b
      · rw [if_pos hov, mergeBoxes_singleton]
      · rw [if_neg hov, mergeBoxes_pair a b hab, if_neg hov]
    · have hba : a.area ≤ b.area := le_of_not_le hab
      have hswap : mergeBoxes [a, b] = mergeBoxes [b, a] := by
        unfold mergeBoxes
        rw [sortByAreaDesc_pair_of_gt a b hab, sortByAreaDesc_pair_of_le b a hba]
      rw [hswap, mergeBoxes_pair b a hba]
      by_cases hov : overlapExceeds b a
      · rw [if_pos hov, mergeBoxes_singleton]
      · rw [if_neg hov, mergeBoxes_pair b a hba, if_neg hov]

/-- Witness for `merge_idempotent_small` on a concrete two-box list. -/
theorem merge_idempotent_small_witness :
    ([(⟨0, 0, 4, 4⟩ : Box), ⟨1, 1, 2, 2⟩].length ≤ 2) ∧
    mergeBoxes (mergeBoxes [(⟨0, 0, 4, 4⟩ : Box), ⟨1, 1, 2, 2⟩]) =
      mergeBoxes [(⟨0, 0, 4, 4⟩ : Box), ⟨1, 1, 2, 2⟩] :=
  ⟨by decide, merge_idempotent_small _ (by decide)⟩

/-- Lemma: when every crop query resolves to a string result (in-band
failures included), the crop loop produces one entry per crop, in order, and
queries every crop path, in order. -/
theorem runCrops_all_ok (q : Backend) (crops : List (String × String))
    (h : ∀ c ∈ crops, ∃ r, q c.1 = .ok r) :
    runCrops q crops =
      (crops.map (fun c => ("Object (" ++ c.2 ++ ")", okValue (q c.1))),
       crops.map Prod.fst) := by
  induction crops with
  | nil => rfl
  | cons c rest ih =>
      obtain ⟨path, label⟩ := c
      obtain ⟨r, hr⟩ := h (path, label) (List.mem_cons_self _ _)
      have ih2 := ih (fun a ha => h a (List.mem_cons_of_mem _ ha))
      simp [runCrops, hr, ih2, okValue]

/-- Lemma: a raised exception at crop `c` stops the crop loop: entries exist
only for the crops before `c` plus a final error entry, and the crops after
`c` are never queried. -/
theorem runCrops_abort (q : Backend) (pre : List (String × String))
    (c : String × String) (post : List (String × String)) (e : String)
    (hpre : ∀ a ∈ pre, ∃ r, q a.1 = .ok r) (hc : q c.1 = .error e) :
    runCrops q (pre ++ c :: post) =
      (pre.map (fun a => ("Object (" ++ a.2 ++ ")", okValue (q a.1))) ++
        [("Error", e)],
       pre.map Prod.fst ++ [c.1]) := by
  induction pre with
  | nil =>
      obtain ⟨path, label⟩ := c
      simp [runCrops, hc]
  | cons a rest ih =>
      obtain ⟨path, label⟩ := a
      obtain ⟨r, hr⟩ := hpre (path, label) (List.mem_cons_self _ _)
      have ih2 := ih (fun x hx => hpre x (List.mem_cons_of_mem _ hx))
      simp [runCrops, hr, ih2, okValue]

/-- C1 counterexample: with a backend on which the first crop query raises a
timeout exception, the run is aborted after that query: the report has 2
entries instead of one per planned query (3: full image plus two crops), and
the second crop is never queried. -/
theorem query_timeout_aborts_cex :
    (runSession qCropTimeout "full"
        [("c1", "top-left"), ("c2", "bottom-right")]).1.length = 2 ∧
    "c2" ∉ (runSession qCropTimeout "full"
        [("c1", "top-left"), ("c2", "bottom-right")]).2 := by
  decide

/-- C1 amended: an in-band failure (for example the backend rate-limit
indicator, returned by the query step as an ordinary string result) is
captured as that query's entry and the session proceeds, so when no query
raises, the report has one entry per planned query and every crop is
queried; but an exception raised by a query (timeout or transport error)
aborts the remaining queries: a single error entry is appended and the crops
after the failing one are never queried. -/
theorem query_failure_handling :
    (∀ (q : Backend) (p r0 : String) (crops : List (String × String)),
        q p = .ok r0 → (∀ c ∈ crops, ∃ r, q c.1 = .ok r) →
        (runSession q p crops).1.length = 1 + crops.length ∧
        (runSession q p crops).2 = p :: crops.map Prod.fst) ∧
    (∀ (q : Backend) (p r0 : String) (pre : List (String × String))
        (c : String × String) (post : List (String × String)) (e : String),
        q p = .ok r0 → (∀ a ∈ pre, ∃ r, q a.1 = .ok r) → q c.1 = .error e →
        (runSession q p (pre ++ c :: post)).1 =
          ("Full image (original)", r0) ::
            (pre.map (fun a => ("Object (" ++ a.2 ++ ")", okValue (q a.1))) ++
              [("Error", e)]) ∧
        (runSession q p (pre ++ c :: post)).2 =
          p :: (pre.map Prod.fst ++ [c.1])) := by
  constructor
  · intro q p r0 crops h0 hok
    simp [runSession, h0, runCrops_all_ok q crops hok]
    omega
  · intro q p r0 pre c post e h0 hpre hc
    simp [runSession, h0, runCrops_abort q pre c post e hpre hc]

/-- Witness for `query_failure_handling`: a run whose only crop resolves to
the in-band rate-limit text, and a run whose first crop raises a timeout. -/
theorem query_failure_handling_witness :
    ((runSession qRateLimited "img" [("c1", "top-left")]).1.length = 1 + 1 ∧
      (runSession qRateLimited "img" [("c1", "top-left")]).2 =
        "img" :: ["c1"]) ∧
    ((runSession qCropTimeout "full"
        ([] ++ ("c1", "top-left") :: [("c2", "bottom-right")])).1 =
        ("Full image (original)", "ok full") ::
          ([] ++ [("Error", "Timeout 30000ms exceeded.")]) ∧
      (runSession qCropTimeout "full"
        ([] ++ ("c1", "top-left") :: [("c2", "bottom-right")])).2 =
        "full" :: ([] ++ ["c1"])) :=
  ⟨query_failure_handling.1 qRateLimited "img" "identified" [("c1", "top-left")]
      rfl
      (by
        intro c hc
        rw [List.mem_singleton] at hc
        subst hc
        exact ⟨"Rate limited by Google. Try again later.", rfl⟩),
    query_failure_handling.2 qCropTimeout "full" "ok full" []
      ("c1", "top-left") [("c2", "bottom-right")] "Timeout 30000ms exceeded."
      rfl (by intro a ha; exact absurd ha (List.not_mem_nil a)) rfl⟩

/-- C8 counterexample: when the full-image query itself raises a transport
error, the report's entry 0 is the error entry, not the full-image entry,
and no per-crop entries follow. -/
theorem session_entry_zero_cex :
    (runSession qFullFails "img" [("c1", "top-left")]).1.map Prod.fst =
      ["Error"] ∧
    "Error" ≠ "Full image (original)" := by
  decide

/-- C8 amended: when no query raises an exception (every query, in-band
failures included, resolves to a string result), the queries are issued in
the fixed order full image first then each crop in production order, and the
report is the full-image entry followed by one entry per crop in that same
order; when a query raises, the report is instead truncated at a final error
entry. -/
theorem session_query_order (q : Backend) (p r0 : String)
    (crops : List (String × String)) (h0 : q p = .ok r0)
    (hok : ∀ c ∈ crops, ∃ r, q c.1 = .ok r) :
    runSession q p crops =
      (("Full image (original)", r0) ::
         crops.map (fun c => ("Object (" ++ c.2 ++ ")", okValue (q c.1))),
       p :: crops.map Prod.fst) := by
  simp [runSession, h0, runCrops_all_ok q crops hok]

/-- Witness for `session_query_order` on a concrete two-crop run. -/
theorem session_query_order_witness :
    runSession qRateLimited "img" [("c1", "top-left"), ("c2", "top-right")] =
      (("Full image (original)", "identified") ::
         [("Object (top-left)", "Rate limited by Google. Try again later."),
          ("Object (top-right)", "identified")],
       "img" :: ["c1", "c2"]) :=
  session_query_order qRateLimited "img" "identified"
    [("c1", "top-left"), ("c2", "top-right")] rfl
    (by intro c hc; unfold qRateLimited; split <;> exact ⟨_, rfl⟩)

/-- Lemma: after removing a directory, it is no longer among the live
directories. -/
theorem rmtree_dir_not_mem (fs : FS) (d : String) : d ∉ (fs.rmtree d).dirs := by
  simp [FS.rmtree]

/-- Lemma: after removing a directory, no live file is inside it. -/
theorem rmtree_files_ne (fs : FS) (d : String) :
    ∀ f ∈ (fs.rmtree d).files, f.1 ≠ d := by
  intro f hf
  simp [FS.rmtree, List.mem_filter] at hf
  exact hf.2

/-- C2: every invocation that reaches creation of the temporary crop
directory (the image file exists and decodes) ends with that directory and
every file inside it removed, on every exit path — normal report, no-objects
fallback return, or an exception raised during launching or querying —
because the body runs inside `try/finally` and the `finally` applies
`rmtree` to every outcome. -/
theorem tempdir_removed (env : Env) (p tmp : String) (fs : FS) (W H : ℤ)
    (hf : env.fileExists = true) (hd : env.decoded = some (W, H)) :
    tmp ∉ (lensDetect env p tmp fs).2.2.dirs ∧
    ∀ f ∈ (lensDetect env p tmp fs).2.2.files, f.1 ≠ tmp := by
  unfold lensDetect
  simp only [hf, hd]
  exact ⟨rmtree_dir_not_mem _ tmp, rmtree_files_ne _ tmp⟩

/-- Witness for `tempdir_removed` on a concrete run with one detected
object. -/
theorem tempdir_removed_witness :
    "tmpd" ∉ (lensDetect envDemo "img" "tmpd" ⟨[], []⟩).2.2.dirs ∧
    ∀ f ∈ (lensDetect envDemo "img" "tmpd" ⟨[], []⟩).2.2.files, f.1 ≠ "tmpd" :=
  tempdir_removed envDemo "img" "tmpd" ⟨[], []⟩ 100 100 rfl rfl

/-- C9: when the image decodes but the detection step yields zero regions,
the run collapses to the single-query fallback: exactly one query is issued,
on the full image, and the returned result is the fallback's single
full-image result. -/
theorem no_regions_single_query (env : Env) (p tmp : String) (fs : FS)
    (W H : ℤ) (hf : env.fileExists = true) (hd : env.decoded = some (W, H))
    (hz : detectObjects W H (2 / 100) env.contours = []) :
    (lensDetect env p tmp fs).1 = env.singleLens p ∧
    (lensDetect env p tmp fs).2.1 = [p] := by
  unfold lensDetect
  simp only [hf, hd, hz]
  simp [detectBody]

/-- Witness for `no_regions_single_query` on a concrete environment with no
contours. -/
theorem no_regions_single_query_witness :
    (lensDetect envNoObjects "img" "t" ⟨[], []⟩).1 =
      envNoObjects.singleLens "img" ∧
    (lensDetect envNoObjects "img" "t" ⟨[], []⟩).2.1 = ["img"] :=
  no_regions_single_query envNoObjects "img" "t" ⟨[], []⟩ 50 40 rfl rfl rfl

end LensDetect
